import Mathlib

/-!
Verification development for `mom6_tools/HorizontalMean.py`.

The module under study computes weighted horizontal reductions (RMSE and mean
difference) of labeled multi-dimensional arrays (xarray `DataArray`s), with an
optional per-basin branch, plus a small plotting helper whose only testable
logic is its line-color decision.

Shallow embedding conventions:
* A cell value is `Val := Option ℚ`; `none` models an undefined/missing
  floating-point cell (NaN, and division by a zero weight total).  All xarray
  reductions in the source use the default `skipna=True` semantics: sums skip
  missing cells (an all-missing sum is `0`), means divide the skipped sum by
  the count of present cells (`none` when no cell is present).
* A `DataArray` is a list of dimension names, a size per dimension name, an
  optional coordinate-label list per name (coordinate values are kept as the
  strings `str(...)` would produce, which is what the basin labels use), and a
  total data function from name-indexed assignments to `Val`.  Indexing data
  by an assignment `String → Nat` makes xarray's broadcasting-by-name of
  binary operations direct: the result reads both operands at the same
  assignment.  Coordinate-based alignment of binary operations is not
  modelled; operands are assumed label-aligned, which the hypotheses of the
  theorems below make explicit through size agreement where it matters.
* `np.sqrt` applied on top of the RMSE reduction is kept symbolic: the
  embedded RMSE functions return the radicand array, and theorems that speak
  about the actual returned value apply `Real.sqrt` elementwise in their
  statements.  Since `Real.sqrt` is injective on nonnegative reals, equalities
  and inequalities of radicands transport to the square-rooted results.
* Python exceptions become `Except Err`; the `Err` constructors follow the
  `raise` sites of the source.  `Err.structural` stands for the
  numpy/xarray-level failures of the basin branch (rank mismatch when
  constructing a labeled array, conflicting coordinate sizes, mismatched
  shapes in the `out.values[i,:,:] = ...` assignment).  `Err.missingCoord`
  models the `AttributeError` of accessing an absent coordinate such as
  `var.z_l`.
* The `isinstance(weights, xr.DataArray)` check of the global weighted branch
  is vacuous in the embedding because only labeled arrays are representable
  here; no claim exercises the type-error path.
-/

namespace MOM6

/-- A cell value: `some q` is a present rational value, `none` a missing/NaN
cell. -/
abbrev Val := Option ℚ

/-- Multiplication with NaN propagation. -/
def vMul : Val → Val → Val
  | some a, some b => some (a * b)
  | _, _ => none

/-- Division with NaN propagation; a zero divisor yields an undefined value,
as float `0/0` (the case arising from zero weight totals) yields NaN. -/
def vDiv : Val → Val → Val
  | some a, some b => if b = 0 then none else some (a / b)
  | _, _ => none

/-- Squaring (`var ** 2`). -/
def vSq (v : Val) : Val := vMul v v

/-- The contribution of one cell to a skip-missing sum. -/
def cellContrib : Val → ℚ
  | some q => q
  | none => 0

/-- The `skipna` sum of a list of cells: missing cells contribute `0`, the empty
and all-missing sums are `0` (numpy/xarray `sum` default). -/
def skipSum (l : List Val) : ℚ := (l.map cellContrib).sum

/-- Number of present cells, the denominator of a `skipna` mean. -/
def skipCount (l : List Val) : Nat := (l.filterMap id).length

/-- All index tuples for a list of dimension sizes (row-major order). -/
def tuples : List Nat → List (List Nat)
  | [] => [[]]
  | n :: ns => (List.range n).flatMap fun j => (tuples ns).map fun t => j :: t

/-- Override an assignment on the named dimensions with the given indices
(first name wins). -/
def updIdx : List String → List Nat → (String → Nat) → String → Nat
  | d :: ds, n :: ns, i, x => if x = d then n else updIdx ds ns i x
  | _, _, i, x => i x

/-- The all-zero assignment, used as the base point of positional access. -/
def idx0 : String → Nat := fun _ => 0

/-- A labeled multi-dimensional array (the fragment of xarray `DataArray`
this module uses). -/
@[ext]
structure DataArray where
  dims : List String
  size : String → Nat
  coord : String → Option (List String)
  data : (String → Nat) → Val

/-- Dimensions of the broadcast of two arrays: the left operand's dimensions
followed by the new ones of the right operand. -/
def dUnionDims (a b : DataArray) : List String :=
  a.dims ++ b.dims.filter fun d => decide (d ∉ a.dims)

/-- Sizes of the broadcast of two arrays. -/
def unionSize (a b : DataArray) (d : String) : Nat :=
  if d ∈ a.dims then a.size d else b.size d

/-- Coordinates of the broadcast of two arrays. -/
def unionCoord (a b : DataArray) (d : String) : Option (List String) :=
  match a.coord d with
  | some c => some c
  | none => b.coord d

/-- Elementwise product with broadcasting by dimension name. -/
def dmul (a b : DataArray) : DataArray :=
  ⟨dUnionDims a b, unionSize a b, unionCoord a b, fun i => vMul (a.data i) (b.data i)⟩

/-- Elementwise quotient with broadcasting by dimension name. -/
def ddiv (a b : DataArray) : DataArray :=
  ⟨dUnionDims a b, unionSize a b, unionCoord a b, fun i => vDiv (a.data i) (b.data i)⟩

/-- Elementwise square (`var ** 2`). -/
def dsq (a : DataArray) : DataArray :=
  ⟨a.dims, a.size, a.coord, fun i => vSq (a.data i)⟩

/-- Model of `a.sum(dim=ds)`: collapse the named dimensions by a skip-missing sum over
their index ranges. -/
def sumOver (a : DataArray) (ds : List String) : DataArray :=
  ⟨a.dims.filter fun d => decide (d ∉ ds), a.size, a.coord,
   fun i => some (skipSum ((tuples (ds.map a.size)).map fun t => a.data (updIdx ds t i)))⟩

/-- Model of `a.mean(dim=ds)`: skip-missing mean; `none` when every cell is missing. -/
def meanOver (a : DataArray) (ds : List String) : DataArray :=
  ⟨a.dims.filter fun d => decide (d ∉ ds), a.size, a.coord,
   fun i =>
     let l := (tuples (ds.map a.size)).map fun t => a.data (updIdx ds t i)
     if skipCount l = 0 then none else some (skipSum l / (skipCount l : ℚ))⟩

/-- Model of `a.where(m == 1.0)`: keep the cells where the mask is exactly one, all
other cells become missing (xarray broadcasts the mask by name). -/
def whereOne (a m : DataArray) : DataArray :=
  ⟨dUnionDims a m, unionSize a m, unionCoord a m,
   fun i => if m.data i = some 1 then a.data i else none⟩

/-- Error taxonomy of the two reducers, following the `raise` sites. -/
inductive Err where
  /-- Raised as `"weights does not have dimensions given by dims[k]"` (the message the
  source also uses for the field's own dimension check). -/
  | missingDim
  /-- Raised as `"Basin masks can only be applied if weights are provided."` -/
  | basinsWithoutWeights
  /-- Raised as `"weights must be a DataArray"` (not reachable in the embedding, where
  only labeled arrays exist). -/
  | weightsNotDataArray
  /-- Raised as `"Regions does not have coordinate region."` -/
  | missingRegionCoord
  /-- Raised as `"If basins is provided, weights must be a 3D array."` -/
  | weightsNot3D
  /-- The `AttributeError` from accessing an absent coordinate (`var.z_l`,
  `var.yh`, `var.xh`, `var.time`). -/
  | missingCoord
  /-- numpy/xarray structural failure: rank mismatch in `xr.DataArray(...)`,
  conflicting coordinate sizes, or a shape mismatch in the final
  `out.values[i,:,:] = ...` assignment. -/
  | structural
deriving DecidableEq, Repr

/-- First position of a label in a list (`sel` by coordinate value picks the
first matching index). -/
def posOf : List String → String → Nat
  | [], _ => 0
  | y :: ys, x => if y = x then 0 else posOf ys x + 1

/-- The expanded 3-D region mask (`region3d` of the source): the basin's 2-D
mask replicated across the field's `z_l` layers, carried on the field's
dimensions 1..3 with the field's `z_l`/`yh`/`xh` coordinate labels. -/
def expandedMask (var b : DataArray) (r : Nat) : DataArray :=
  let d1 := var.dims.getD 1 ""
  let d2 := var.dims.getD 2 ""
  let d3 := var.dims.getD 3 ""
  let rd := b.dims.getD 0 ""
  let b0 := b.dims.getD 1 ""
  let b1 := b.dims.getD 2 ""
  { dims := var.dims.drop 1
  , size := fun d =>
      if d = d1 then ((var.coord "z_l").getD []).length
      else if d = d2 then b.size b0
      else if d = d3 then b.size b1 else 0
  , coord := fun d =>
      if d = d1 then var.coord "z_l"
      else if d = d2 then var.coord "yh"
      else if d = d3 then var.coord "xh" else none
  , data := fun i =>
      b.data fun d => if d = rd then r else if d = b0 then i d2 else if d = b1 then i d3 else 0 }

/-- Lines 93-97 / 180-184 of the source: build `region3d` for basin index `r`.
Fails like the source does: `AttributeError` when `var` lacks the `z_l`, `yh`
or `xh` coordinate; a structural error when the basin mask is not 3-D (so
`sel(...).values` is not 2-D), when `var.dims[1:]` does not have exactly three
names (the `xr.DataArray` rank check, or the `var.dims[3]` index error), or
when the coordinate lengths conflict with the mask's shape. -/
def region3dOf (var b : DataArray) (r : Nat) : Except Err DataArray :=
  match var.coord "z_l" with
  | none => .error .missingCoord
  | some _zs =>
    match b.dims with
    | [_, b0, b1] =>
      match var.dims.drop 1 with
      | [_, _, _] =>
        match var.coord "yh", var.coord "xh" with
        | some yhs, some xhs =>
          if yhs.length = b.size b0 ∧ xhs.length = b.size b1 then
            .ok (expandedMask var b r)
          else .error .structural
        | _, _ => .error .missingCoord
      | _ => .error .structural
    | _ => .error .structural

/-- The `tmp_weights` of the source: the weights restricted to the cells where the
expanded mask of basin `r` equals one. -/
def maskedW (var w b : DataArray) (r : Nat) : DataArray :=
  whereOne w (expandedMask var b r)

/-- The weighted-RMSE radicand kernel of lines 76-78 (and 100-101):
`(var**2 * weights).sum(dims) / weights.sum(dims)`; the source takes
`np.sqrt` of this. -/
def rmseKernel (var w : DataArray) (d2 d3 : String) : DataArray :=
  ddiv (sumOver (dmul (dsq var) w) [d2, d3]) (sumOver w [d2, d3])

/-- The weighted-mean kernel of lines 164-166 (and 186-188):
`(var * weights).sum(dims) / weights.sum(dims)`. -/
def meanKernel (var w : DataArray) (d2 d3 : String) : DataArray :=
  ddiv (sumOver (dmul var w) [d2, d3]) (sumOver w [d2, d3])

/-- Python-dict insertion into the ordered basin dictionary: a fresh key is
appended, an existing key keeps its position and updates its value. -/
def odInsert (od : List (String × DataArray)) (k : String) (v : DataArray) :
    List (String × DataArray) :=
  if od.any fun p => p.1 == k then
    od.map fun p => if p.1 == k then (k, v) else p
  else od ++ [(k, v)]

/-- The `for reg in basins.region:` loop shared by both reducers: for each
region label, build the expanded mask (`sel` resolves the label to its first
position), mask the weights, apply the branch's kernel and store the result
under `str(reg.values)`. -/
def basinLoop (kernel : DataArray → DataArray) (var w b : DataArray)
    (allRegs : List String) :
    List (String × DataArray) → List String → Except Err (List (String × DataArray))
  | od, [] => .ok od
  | od, lbl :: rest =>
    match region3dOf var b (posOf allRegs lbl) with
    | .error e => .error e
    | .ok r3 => basinLoop kernel var w b allRegs (odInsert od lbl (kernel (whereOne w r3))) rest

/-- Lines 105-112 / 191-198: allocate the per-basin output
(`np.zeros((len(basins.region), var.shape[0], var.shape[1]))` labeled by the
collected keys, `var.time` and `var.z_l`) and copy each stored field
positionally into its row.  The guards model xarray's conflicting-size checks
on the coordinates and numpy's shape check of each row assignment. -/
def mkOut (var b : DataArray) (regs : List String) (od : List (String × DataArray)) :
    Except Err DataArray :=
  match b.dims, var.dims with
  | rd :: _, d0 :: d1 :: _ =>
    match var.coord "time", var.coord "z_l" with
    | some ts, some zs =>
      if (od.map Prod.fst).length = regs.length ∧ ts.length = var.size d0
          ∧ zs.length = var.size d1
          ∧ od.all fun p => p.2.dims.map p.2.size == [var.size d0, var.size d1] then
        .ok { dims := [rd, d0, d1]
            , size := fun d =>
                if d = rd then regs.length
                else if d = d0 then var.size d0
                else if d = d1 then var.size d1 else 0
            , coord := fun d =>
                if d = rd then some (od.map Prod.fst)
                else if d = d0 then some ts
                else if d = d1 then some zs else none
            , data := fun i =>
                match od.get? (i rd) with
                | some p => p.2.data (updIdx p.2.dims [i d0, i d1] idx0)
                | none => some 0 }
      else .error .structural
    | _, _ => .error .missingCoord
  | _, _ => .error .structural

/-- The common tail of both reducers' basin branches (lines 82-112 resp.
168-198); the two branches differ only in the kernel applied to the masked
weights. -/
def basinBranch (kernel : DataArray → DataArray) (var w b : DataArray) :
    Except Err DataArray :=
  match b.coord "region" with
  | none => .error .missingRegionCoord
  | some regs =>
    if w.dims.length ≠ 3 then .error .weightsNot3D
    else
      match basinLoop kernel var w b regs [] regs with
      | .error e => .error e
      | .ok od => mkOut var b regs od

/-- Model of `HorizontalMeanRmse_da` (lines 27-114).  The returned array holds the
radicand of the result; the source applies `np.sqrt` elementwise on top. -/
def HorizontalMeanRmse_da (var : DataArray) (dims : String × String := ("yh", "xh"))
    (weights : Option DataArray := none) (basins : Option DataArray := none) :
    Except Err DataArray :=
  if dims.1 ∉ var.dims then .error .missingDim
  else if dims.2 ∉ var.dims then .error .missingDim
  else
    match weights, basins with
    | none, some _ => .error .basinsWithoutWeights
    | none, none => .ok (meanOver (dsq var) [dims.1, dims.2])
    | some w, none =>
      if dims.1 ∉ w.dims then .error .missingDim
      else if dims.2 ∉ w.dims then .error .missingDim
      else .ok (rmseKernel var w dims.1 dims.2)
    | some w, some b =>
      basinBranch (fun tw => rmseKernel var tw dims.1 dims.2) var w b

/-- Model of `HorizontalMeanDiff_da` (lines 116-200). -/
def HorizontalMeanDiff_da (var : DataArray) (dims : String × String := ("yh", "xh"))
    (weights : Option DataArray := none) (basins : Option DataArray := none) :
    Except Err DataArray :=
  if dims.1 ∉ var.dims then .error .missingDim
  else if dims.2 ∉ var.dims then .error .missingDim
  else
    match weights, basins with
    | none, some _ => .error .basinsWithoutWeights
    | none, none => .ok (meanOver var [dims.1, dims.2])
    | some w, none =>
      if dims.1 ∉ w.dims then .error .missingDim
      else if dims.2 ∉ w.dims then .error .missingDim
      else .ok (meanKernel var w dims.1 dims.2)
    | some w, some b =>
      basinBranch (fun tw => meanKernel var tw dims.1 dims.2) var w b

/-- Result projections used by the theorem statements. -/
def isOk : Except Err DataArray → Bool
  | .ok _ => true
  | .error _ => false

/-- Dimension names of a successful result (`[]` on error). -/
def resDims : Except Err DataArray → List String
  | .ok a => a.dims
  | .error _ => []

/-- Size lookup on a successful result (`0` on error). -/
def resSize : Except Err DataArray → String → Nat
  | .ok a => a.size
  | .error _ => fun _ => 0

/-- Coordinate lookup on a successful result. -/
def resCoord : Except Err DataArray → String → Option (List String)
  | .ok a => a.coord
  | .error _ => fun _ => none

/-- Data lookup on a result: `none` on error, `some v` (with `v` possibly the
missing value) on success — an error and a missing cell stay distinguishable. -/
def resData : Except Err DataArray → (String → Nat) → Option Val
  | .ok a => fun i => some (a.data i)
  | .error _ => fun _ => none

/-! ### Spec-side formulas (written from the spec's words, for refinement) -/

/-- The spec's numerator "sum over `dims` of `field² × weights`", written
independently as a nested sum over the two index ranges, skipping missing
products. -/
def specNumerator (f w : DataArray) (d2 d3 : String) (i : String → Nat) : ℚ :=
  ((List.range (f.size d2)).map fun j =>
    ((List.range (f.size d3)).map fun k =>
      cellContrib (vMul (vSq (f.data (updIdx [d2, d3] [j, k] i)))
        (w.data (updIdx [d2, d3] [j, k] i)))).sum).sum

/-- The spec's denominator "sum over `dims` of `weights`". -/
def specDenominator (f w : DataArray) (d2 d3 : String) (i : String → Nat) : ℚ :=
  ((List.range (f.size d2)).map fun j =>
    ((List.range (f.size d3)).map fun k =>
      cellContrib (w.data (updIdx [d2, d3] [j, k] i))).sum).sum

/-- The spec's weighted-RMSE radicand: numerator over denominator, undefined
for a zero denominator (the claim's result is the square root of this). -/
def specWeightedRmseRadicand (f w : DataArray) (d2 d3 : String) (i : String → Nat) : Val :=
  if specDenominator f w d2 d3 i = 0 then none
  else some (specNumerator f w d2 d3 i / specDenominator f w d2 d3 i)

/-! ### Concrete instances used by witnesses and counterexamples -/

/-- A 1×2 field on `(yh, xh)` with one present cell and one missing cell. -/
def cexVar1 : DataArray :=
  { dims := ["yh", "xh"]
  , size := fun d => if d = "yh" then 1 else if d = "xh" then 2 else 0
  , coord := fun _ => none
  , data := fun i => if i "xh" = 0 then some 1 else none }

/-- Uniformly-one weights on the same 1×2 grid. -/
def cexW1 : DataArray :=
  { dims := ["yh", "xh"]
  , size := fun d => if d = "yh" then 1 else if d = "xh" then 2 else 0
  , coord := fun _ => none
  , data := fun _ => some 1 }

/-! ### The Panel Plotter's color decision (`plotPanel`, lines 202-218) -/

/-- An entry of the `observedFlows` mapping: either a `(min, max)` tuple or a
single reference value. -/
inductive ObsEntry where
  | rangeObs (a b : ℚ)
  | scalarObs (v : ℚ)
deriving DecidableEq, Repr

/-- The section object consumed by `plotPanel`. -/
structure PlotSection where
  label : String
  time : List ℚ
  data : List ℚ
  ylim : Option (ℚ × ℚ)

/-- Dict lookup (`observedFlows[section.label]` guarded by
`section.label in observedFlows.keys()`). -/
def lookupObs : List (String × ObsEntry) → String → Option ObsEntry
  | [], _ => none
  | (k, v) :: rest, lbl => if k = lbl then some v else lookupObs rest lbl

/-- Model of `section.data.mean()`: the mean of an empty series is NaN. -/
def listMean (xs : List ℚ) : Val :=
  if xs.length = 0 then none else some (xs.sum / (xs.length : ℚ))

/-- Python's chained comparison
`min(range) <= mean <= max(range)`; any comparison with NaN is false. -/
def inObsRange (m : Val) (a b : ℚ) : Bool :=
  match m with
  | some q => decide (min a b ≤ q ∧ q ≤ max a b)
  | none => false

/-- The green color `'#90ee90'`. -/
def greenColor : String := "#90ee90"

/-- The red color `'#f26161'`. -/
def redColor : String := "#f26161"

/-- The default grey color `'#c3c3c3'`. -/
def greyColor : String := "#c3c3c3"

/-- The color decision of `plotPanel` (lines 204-212): grey by default; when
the section's label maps to a `(min, max)` tuple and `colorCode` is set, green
if the data mean lies within the range and red otherwise (a scalar reference
or an unknown label keeps grey). -/
def plotPanelColor (sec : PlotSection) (observedFlows : List (String × ObsEntry))
    (colorCode : Bool) : String :=
  match lookupObs observedFlows sec.label with
  | some (.rangeObs a b) =>
    if colorCode then
      (if inObsRange (listMean sec.data) a b then greenColor else redColor)
    else greyColor
  | some (.scalarObs _) => greyColor
  | none => greyColor

/-! ### Standard-form hypotheses for the basin branch -/

/-- The well-formedness preconditions under which the basin branch of either
reducer runs to completion: the field is the 4-D `(time, z_l, yh, xh)`-shaped
array the source hardcodes positionally, the weights are 3-D on the trailing
dimensions, the basin set is a 3-D mask stack with a `region` coordinate of
distinct labels, all required coordinates are present with consistent
lengths, and the dimension names are pairwise distinct. -/
structure StdBasin (var w b : DataArray) (d0 d1 d2 d3 rd b0 b1 : String)
    (regs ts zs yhs xhs : List String) : Prop where
  hvd : var.dims = [d0, d1, d2, d3]
  hwd : w.dims = [d1, d2, d3]
  hbd : b.dims = [rd, b0, b1]
  hreg : b.coord "region" = some regs
  hnd : regs.Nodup
  ht : var.coord "time" = some ts
  hz : var.coord "z_l" = some zs
  hy : var.coord "yh" = some yhs
  hx : var.coord "xh" = some xhs
  hylen : yhs.length = b.size b0
  hxlen : xhs.length = b.size b1
  htlen : ts.length = var.size d0
  hzlen : zs.length = var.size d1
  d01 : d0 ≠ d1
  d02 : d0 ≠ d2
  d03 : d0 ≠ d3
  d12 : d1 ≠ d2
  d13 : d1 ≠ d3
  d23 : d2 ≠ d3
  rd0 : rd ≠ d0
  rd1 : rd ≠ d1

/-- The explicit shape of a successful basin-mode output: dimensions
`(region, time, z_l)`, region axis labeled by the region values, one row per
basin holding that basin's reduced field (copied positionally). -/
def basinOutGeneric (regs ts zs : List String) (rd d0 d1 : String) (s0 s1 : Nat)
    (row : Nat → DataArray) : DataArray :=
  { dims := [rd, d0, d1]
  , size := fun d =>
      if d = rd then regs.length else if d = d0 then s0 else if d = d1 then s1 else 0
  , coord := fun d =>
      if d = rd then some regs else if d = d0 then some ts else if d = d1 then some zs else none
  , data := fun i =>
      match regs.get? (i rd) with
      | some _ => (row (i rd)).data (updIdx [d0, d1] [i d0, i d1] idx0)
      | none => some 0 }

/-! ### Concrete 4-D instances for the basin branch -/

/-- A standard-form 1×1×1×1 field with constant value 2. -/
def cexVar4 : DataArray :=
  { dims := ["time", "z_l", "yh", "xh"]
  , size := fun _ => 1
  , coord := fun d =>
      if d = "time" then some ["0"] else if d = "z_l" then some ["5"]
      else if d = "yh" then some ["10"] else if d = "xh" then some ["20"] else none
  , data := fun _ => some 2 }

/-- A single-basin all-ones 1×1 mask stack with a `region` coordinate. -/
def cexBasins : DataArray :=
  { dims := ["region", "yh", "xh"]
  , size := fun _ => 1
  , coord := fun d => if d = "region" then some ["Atlantic"] else none
  , data := fun _ => some 1 }

/-- Well-formed 3-D all-ones weights on `(z_l, yh, xh)`. -/
def cexW3 : DataArray :=
  { dims := ["z_l", "yh", "xh"]
  , size := fun _ => 1
  , coord := fun d =>
      if d = "z_l" then some ["5"] else if d = "yh" then some ["10"]
      else if d = "xh" then some ["20"] else none
  , data := fun _ => some 1 }

/-- 3-D weights that lack the `xh` dimension required by `dims`. -/
def cexWBad : DataArray :=
  { dims := ["z_l", "yh", "foo"]
  , size := fun _ => 1
  , coord := fun _ => none
  , data := fun _ => some 1 }

/-- A 2-D field missing the `yh` dimension. -/
def cexVarNoYh : DataArray :=
  { dims := ["lat", "xh"]
  , size := fun _ => 1
  , coord := fun _ => none
  , data := fun _ => some 0 }

/-- A 4-D field like `cexVar4` but whose leading dimension is named `foo`
(its `time` coordinate is attached to `foo`); the basin branch never checks
the dimension names themselves. -/
def cexVar10 : DataArray :=
  { dims := ["foo", "z_l", "yh", "xh"]
  , size := fun _ => 1
  , coord := fun d =>
      if d = "time" then some ["0"] else if d = "z_l" then some ["5"]
      else if d = "yh" then some ["10"] else if d = "xh" then some ["20"] else none
  , data := fun _ => some 2 }

/-- Weights like `cexW3` but with different `yh` coordinate labels than the
field. -/
def cexWAlt : DataArray :=
  { dims := ["z_l", "yh", "xh"]
  , size := fun _ => 1
  , coord := fun d =>
      if d = "z_l" then some ["5"] else if d = "yh" then some ["99"]
      else if d = "xh" then some ["20"] else none
  , data := fun _ => some 1 }

/-- A single-basin mask stack selecting no cells (mask uniformly zero). -/
def cexBasinsZero : DataArray :=
  { dims := ["region", "yh", "xh"]
  , size := fun _ => 1
  , coord := fun d => if d = "region" then some ["Empty"] else none
  , data := fun _ => some 0 }

/-- A concrete plot section whose transport mean is 4. -/
def cexSec9 : PlotSection :=
  { label := "Drake Passage", time := [0], data := [4], ylim := none }

/-- Observed flows giving `Drake Passage` the range (3, 5). -/
def cexObs9 : List (String × ObsEntry) := [("Drake Passage", ObsEntry.rangeObs 3 5)]

/-! ### Basic lemmas about the skip-missing sums -/

theorem skipSum_nil : skipSum [] = 0 := rfl

theorem skipSum_cons (v : Val) (l : List Val) :
    skipSum (v :: l) = cellContrib v + skipSum l := by
  simp [skipSum]

theorem skipSum_append (l1 l2 : List Val) :
    skipSum (l1 ++ l2) = skipSum l1 + skipSum l2 := by
  simp [skipSum]

theorem skipSum_map_congr {α : Type} (l : List α) (f g : α → Val)
    (h : ∀ x ∈ l, f x = g x) : skipSum (l.map f) = skipSum (l.map g) := by
  rw [List.map_congr_left h]

theorem skipSum_map_flatMap {α β : Type} (l : List α) (f : α → List β) (g : β → Val) :
    skipSum ((l.flatMap f).map g) = (l.map fun a => skipSum ((f a).map g)).sum := by
  induction l with
  | nil => simp [skipSum]
  | cons x xs ih => simp [List.flatMap_cons, skipSum_append, ih]

theorem tuples_pair (n2 n3 : Nat) :
    tuples [n2, n3] = (List.range n2).flatMap fun j => (List.range n3).map fun k => [j, k] := by
  simp only [tuples]
  congr 1
  funext j
  induction List.range n3 with
  | nil => simp
  | cons y ys ih => simp_all

theorem skipSum_tuples_pair (n2 n3 : Nat) (g : List Nat → Val) :
    skipSum ((tuples [n2, n3]).map g) =
      ((List.range n2).map fun j =>
        skipSum (((List.range n3).map fun k => [j, k]).map g)).sum := by
  rw [tuples_pair, skipSum_map_flatMap]

theorem skipCount_map_all_some {α : Type} (l : List α) (g : α → Val)
    (h : ∀ x ∈ l, (g x).isSome) : skipCount (l.map g) = l.length := by
  induction l with
  | nil => rfl
  | cons x xs ih =>
    have ih' := ih fun y hy => h y (by simp [hy])
    cases hv : g x with
    | none => exact absurd (hv ▸ h x (by simp)) (by simp)
    | some q =>
      simp only [List.map_cons, skipCount, List.filterMap_cons, hv, id_eq, List.length_cons]
      simp only [skipCount] at ih'
      omega

theorem skipSum_map_all_some {α : Type} (l : List α) (g : α → ℚ) :
    skipSum (l.map fun x => some (g x)) = (l.map g).sum := by
  induction l with
  | nil => rfl
  | cons x xs ih => simp [skipSum] at ih ⊢; simp [cellContrib, ih]

theorem skipSum_const_one {α : Type} (l : List α) :
    skipSum (l.map fun _ => (some 1 : Val)) = (l.length : ℚ) := by
  induction l with
  | nil => rfl
  | cons x xs ih =>
    rw [List.map_cons, skipSum_cons, ih]
    simp [cellContrib, add_comm]

/-! ### Evaluation of the non-basin branches -/

theorem rmse_unweighted_eq (var : DataArray) (d2 d3 : String)
    (h1 : d2 ∈ var.dims) (h2 : d3 ∈ var.dims) :
    HorizontalMeanRmse_da var (d2, d3) none none = .ok (meanOver (dsq var) [d2, d3]) := by
  simp [HorizontalMeanRmse_da, h1, h2]

theorem diff_unweighted_eq (var : DataArray) (d2 d3 : String)
    (h1 : d2 ∈ var.dims) (h2 : d3 ∈ var.dims) :
    HorizontalMeanDiff_da var (d2, d3) none none = .ok (meanOver var [d2, d3]) := by
  simp [HorizontalMeanDiff_da, h1, h2]

theorem rmse_global_eq (var w : DataArray) (d2 d3 : String)
    (h1 : d2 ∈ var.dims) (h2 : d3 ∈ var.dims) (h3 : d2 ∈ w.dims) (h4 : d3 ∈ w.dims) :
    HorizontalMeanRmse_da var (d2, d3) (some w) none = .ok (rmseKernel var w d2 d3) := by
  simp [HorizontalMeanRmse_da, h1, h2, h3, h4]

theorem diff_global_eq (var w : DataArray) (d2 d3 : String)
    (h1 : d2 ∈ var.dims) (h2 : d3 ∈ var.dims) (h3 : d2 ∈ w.dims) (h4 : d3 ∈ w.dims) :
    HorizontalMeanDiff_da var (d2, d3) (some w) none = .ok (meanKernel var w d2 d3) := by
  simp [HorizontalMeanDiff_da, h1, h2, h3, h4]

theorem vMul_one (v : Val) : vMul v (some 1) = v := by
  cases v <;> simp [vMul]

theorem vSq_isSome (v : Val) (h : v.isSome) : (vSq v).isSome := by
  cases v
  · simp at h
  · simp [vSq, vMul]

theorem skipSum_map_pairs (n3 j : Nat) (g : List Nat → Val) :
    skipSum (((List.range n3).map fun k => [j, k]).map g) =
      ((List.range n3).map fun k => cellContrib (g [j, k])).sum := by
  rw [List.map_map]
  unfold skipSum
  rw [List.map_map]
  rfl

theorem sumOver_pair_eq_nested (a : DataArray) (d2 d3 : String) (i : String → Nat)
    (n2 n3 : Nat) (h2 : a.size d2 = n2) (h3 : a.size d3 = n3) :
    (sumOver a [d2, d3]).data i =
      some (((List.range n2).map fun j =>
        ((List.range n3).map fun k => cellContrib (a.data (updIdx [d2, d3] [j, k] i))).sum).sum) := by
  subst h2
  subst h3
  show some (skipSum ((tuples [a.size d2, a.size d3]).map fun t => a.data (updIdx [d2, d3] t i))) = _
  rw [skipSum_tuples_pair]
  congr 1
  exact congrArg List.sum (List.map_congr_left fun j _ => skipSum_map_pairs _ _ _)

theorem meanOver_pair_data (a : DataArray) (d2 d3 : String) (i : String → Nat) :
    (meanOver a [d2, d3]).data i =
      (if skipCount ((tuples [a.size d2, a.size d3]).map fun t => a.data (updIdx [d2, d3] t i)) = 0
       then none
       else some (skipSum ((tuples [a.size d2, a.size d3]).map fun t => a.data (updIdx [d2, d3] t i)) /
         (skipCount ((tuples [a.size d2, a.size d3]).map fun t => a.data (updIdx [d2, d3] t i)) : ℚ))) :=
  rfl

theorem rmseKernel_data_eq_spec (var w : DataArray) (d2 d3 : String)
    (h2 : d2 ∈ var.dims) (h3 : d3 ∈ var.dims)
    (hw2 : w.size d2 = var.size d2) (hw3 : w.size d3 = var.size d3)
    (i : String → Nat) :
    (rmseKernel var w d2 d3).data i = specWeightedRmseRadicand var w d2 d3 i := by
  have e1 := sumOver_pair_eq_nested (dmul (dsq var) w) d2 d3 i (var.size d2) (var.size d3)
    (by simp [dmul, unionSize, dsq, h2]) (by simp [dmul, unionSize, dsq, h3])
  have e2 := sumOver_pair_eq_nested w d2 d3 i (var.size d2) (var.size d3) hw2 hw3
  show vDiv ((sumOver (dmul (dsq var) w) [d2, d3]).data i) ((sumOver w [d2, d3]).data i) = _
  rw [e1, e2]
  unfold specWeightedRmseRadicand specNumerator specDenominator vDiv
  rfl

theorem rmseKernel_data_uniform (var w : DataArray) (d2 d3 : String)
    (h2 : d2 ∈ var.dims) (h3 : d3 ∈ var.dims)
    (hw2 : w.size d2 = var.size d2) (hw3 : w.size d3 = var.size d3)
    (hone : ∀ j, w.data j = some 1) (hsome : ∀ j, (var.data j).isSome)
    (i : String → Nat) :
    (rmseKernel var w d2 d3).data i = (meanOver (dsq var) [d2, d3]).data i := by
  have hsz1 : (dmul (dsq var) w).size d2 = var.size d2 := by simp [dmul, unionSize, dsq, h2]
  have hsz1' : (dmul (dsq var) w).size d3 = var.size d3 := by simp [dmul, unionSize, dsq, h3]
  have hds : (dsq var).size = var.size := rfl
  have hS1 : skipSum ((tuples [var.size d2, var.size d3]).map
        fun t => (dmul (dsq var) w).data (updIdx [d2, d3] t i)) =
      skipSum ((tuples [var.size d2, var.size d3]).map
        fun t => (dsq var).data (updIdx [d2, d3] t i)) := by
    apply skipSum_map_congr
    intro t _
    show vMul (vSq (var.data (updIdx [d2, d3] t i))) (w.data (updIdx [d2, d3] t i)) = _
    rw [hone]
    exact vMul_one _
  have hS2 : skipSum ((tuples [var.size d2, var.size d3]).map
        fun t => w.data (updIdx [d2, d3] t i)) =
      ((tuples [var.size d2, var.size d3]).length : ℚ) := by
    rw [skipSum_map_congr _ _ (fun _ => (some 1 : Val)) (fun t _ => hone _)]
    exact skipSum_const_one _
  have hcnt : skipCount ((tuples [var.size d2, var.size d3]).map
        fun t => (dsq var).data (updIdx [d2, d3] t i)) =
      (tuples [var.size d2, var.size d3]).length := by
    exact skipCount_map_all_some _ _ fun t _ => vSq_isSome _ (hsome _)
  show vDiv
      (some (skipSum ((tuples [(dmul (dsq var) w).size d2, (dmul (dsq var) w).size d3]).map
        fun t => (dmul (dsq var) w).data (updIdx [d2, d3] t i))))
      (some (skipSum ((tuples [w.size d2, w.size d3]).map
        fun t => w.data (updIdx [d2, d3] t i)))) = _
  rw [hsz1, hsz1', hw2, hw3, hS1, hS2, meanOver_pair_data]
  simp only [hds]
  rw [hcnt]
  by_cases h0 : (tuples [var.size d2, var.size d3]).length = 0
  · simp [h0, vDiv]
  · simp [h0, vDiv, Nat.cast_eq_zero]

/-- C1 (amended).  For every field and weights satisfying the preconditions
(both dimension names on the field and on the weights, label-aligned sizes, no
basins), `HorizontalMeanRmse_da` returns the square root of (sum over dims of
field² × weights) divided by (sum over dims of weights): the returned radicand
equals the spec formula pointwise, hence so does its elementwise square root.
When the weights are uniformly 1 *and the field has no missing cells*, this
equals the unweighted RMSE; the restriction to fields without missing cells is
forced by the skip-missing semantics (see the counterexample). -/
theorem C1_weighted_rmse_formula (var w : DataArray) (d2 d3 : String)
    (h1 : d2 ∈ var.dims) (h2 : d3 ∈ var.dims) (h3 : d2 ∈ w.dims) (h4 : d3 ∈ w.dims)
    (hw2 : w.size d2 = var.size d2) (hw3 : w.size d3 = var.size d3) :
    (∀ i, resData (HorizontalMeanRmse_da var (d2, d3) (some w) none) i =
        some (specWeightedRmseRadicand var w d2 d3 i))
    ∧ (∀ i, (resData (HorizontalMeanRmse_da var (d2, d3) (some w) none) i).map
          (Option.map fun q : ℚ => Real.sqrt (q : ℝ)) =
        some ((specWeightedRmseRadicand var w d2 d3 i).map fun q : ℚ => Real.sqrt (q : ℝ)))
    ∧ ((∀ j, w.data j = some 1) → (∀ j, (var.data j).isSome) →
        ∀ i, resData (HorizontalMeanRmse_da var (d2, d3) (some w) none) i =
          resData (HorizontalMeanRmse_da var (d2, d3) none none) i) := by
  have hglob := rmse_global_eq var w d2 d3 h1 h2 h3 h4
  have hval : ∀ i, resData (HorizontalMeanRmse_da var (d2, d3) (some w) none) i =
      some (specWeightedRmseRadicand var w d2 d3 i) := by
    intro i
    rw [hglob]
    show some ((rmseKernel var w d2 d3).data i) = _
    rw [rmseKernel_data_eq_spec var w d2 d3 h1 h2 hw2 hw3]
  refine ⟨hval, ?_, ?_⟩
  · intro i
    rw [hval i]
    rfl
  · intro hone hsome i
    rw [hglob, rmse_unweighted_eq var d2 d3 h1 h2]
    show some ((rmseKernel var w d2 d3).data i) = some ((meanOver (dsq var) [d2, d3]).data i)
    rw [rmseKernel_data_uniform var w d2 d3 h1 h2 hw2 hw3 hone hsome]

/-- Witness for C1: the formula theorem applied to the concrete 1×2 instance. -/
theorem C1_weighted_rmse_formula_witness :
    resData (HorizontalMeanRmse_da cexVar1 ("yh", "xh") (some cexW1) none) idx0 =
      some (specWeightedRmseRadicand cexVar1 cexW1 "yh" "xh" idx0) :=
  (C1_weighted_rmse_formula cexVar1 cexW1 "yh" "xh"
    (by decide) (by decide) (by decide) (by decide) rfl rfl).1 idx0

set_option maxHeartbeats 1000000 in
/-- Counterexample for C1's "uniform weights give the unweighted RMSE" clause:
on a 1×2 field with one present cell (value 1) and one missing cell, with
weights uniformly 1, the weighted radicand is 1/2 (the missing cell is skipped
in the numerator but its weight still counts in the denominator) while the
unweighted RMSE radicand is 1 (the mean also skips the missing cell in its
count); the square-rooted results differ as well. -/
theorem C1_uniform_weights_cex :
    cexW1.data = (fun _ => (some 1 : Val))
    ∧ resData (HorizontalMeanRmse_da cexVar1 ("yh", "xh") (some cexW1) none) idx0 =
        some (some (1/2))
    ∧ resData (HorizontalMeanRmse_da cexVar1 ("yh", "xh") none none) idx0 = some (some 1)
    ∧ Option.map (fun q : ℚ => Real.sqrt (q : ℝ)) (some ((1 : ℚ)/2)) ≠
        Option.map (fun q : ℚ => Real.sqrt (q : ℝ)) (some (1 : ℚ)) := by
  have htup : tuples [1, 2] = [[0, 0], [0, 1]] := by decide
  have s1 : ("xh" : String) = "yh" ↔ False := iff_false_intro (by decide)
  have s2 : ("yh" : String) = "xh" ↔ False := iff_false_intro (by decide)
  refine ⟨rfl, ?_, ?_, ?_⟩
  · rw [rmse_global_eq cexVar1 cexW1 "yh" "xh" (by decide) (by decide) (by decide) (by decide)]
    simp [resData, rmseKernel, ddiv, sumOver, dmul, dsq, unionSize, cexVar1, cexW1,
      s1, s2, htup, updIdx, idx0, vMul, vSq, vDiv, skipSum, cellContrib]
    norm_num
  · rw [rmse_unweighted_eq cexVar1 "yh" "xh" (by decide) (by decide)]
    simp [resData, meanOver, dsq, cexVar1, s1, s2, htup, updIdx, idx0, vSq, vMul, vDiv,
      skipSum, skipCount, cellContrib]
  have hlt : Real.sqrt (((1 : ℚ)/2 : ℚ) : ℝ) < Real.sqrt ((1 : ℚ) : ℝ) := by
    apply Real.sqrt_lt_sqrt
    · norm_num
    · norm_num
  intro hmap
  simp only [Option.map_some'] at hmap
  exact absurd (Option.some.inj hmap) (ne_of_lt hlt)

/-! ### The basin branch under the standard-form hypotheses -/

theorem dUnionDims_subset_eq (a c : DataArray) (h : ∀ d ∈ c.dims, d ∈ a.dims) :
    dUnionDims a c = a.dims := by
  unfold dUnionDims
  have hnil : c.dims.filter (fun d => decide (d ∉ a.dims)) = [] := by
    rw [List.filter_eq_nil_iff]
    intro d hd
    simpa using h d hd
  rw [hnil, List.append_nil]

theorem expandedMask_dims (var b : DataArray) (r : Nat) :
    (expandedMask var b r).dims = var.dims.drop 1 := rfl

section BasinLemmas

variable {var w b : DataArray} {d0 d1 d2 d3 rd b0 b1 : String}
variable {regs ts zs yhs xhs : List String}

theorem region3dOf_eq (S : StdBasin var w b d0 d1 d2 d3 rd b0 b1 regs ts zs yhs xhs)
    (r : Nat) : region3dOf var b r = .ok (expandedMask var b r) := by
  have hdrop : var.dims.drop 1 = [d1, d2, d3] := by rw [S.hvd]; rfl
  simp only [region3dOf, S.hz, S.hbd, hdrop, S.hy, S.hx]
  rw [if_pos ⟨S.hylen, S.hxlen⟩]

theorem basinLoop_ok (kernel : DataArray → DataArray) (allRegs : List String)
    (hr3 : ∀ r, region3dOf var b r = .ok (expandedMask var b r)) :
    ∀ (rest : List String) (od : List (String × DataArray)),
      basinLoop kernel var w b allRegs od rest =
        .ok (rest.foldl (fun od' lbl =>
          odInsert od' lbl (kernel (whereOne w (expandedMask var b (posOf allRegs lbl))))) od) := by
  intro rest
  induction rest with
  | nil => intro od; rfl
  | cons x xs ih =>
    intro od
    show (match region3dOf var b (posOf allRegs x) with
      | Except.error e => (Except.error e : Except Err (List (String × DataArray)))
      | Except.ok r3 =>
        basinLoop kernel var w b allRegs (odInsert od x (kernel (whereOne w r3))) xs) = _
    rw [hr3 (posOf allRegs x)]
    exact ih _

theorem foldl_odInsert_fresh (f : String → DataArray) :
    ∀ (xs : List String) (od : List (String × DataArray)), xs.Nodup →
      (∀ k ∈ xs, ∀ p ∈ od, p.1 ≠ k) →
      xs.foldl (fun od' lbl => odInsert od' lbl (f lbl)) od =
        od ++ (xs.map fun lbl => (lbl, f lbl)) := by
  intro xs
  induction xs with
  | nil => intro od _ _; simp
  | cons x xs ih =>
    intro od hnd hfresh
    have hins : odInsert od x (f x) = od ++ [(x, f x)] := by
      unfold odInsert
      rw [if_neg]
      intro hc
      rw [List.any_eq_true] at hc
      obtain ⟨p, hp, hbeq⟩ := hc
      exact hfresh x (List.mem_cons_self x xs) p hp (by simpa using hbeq)
    rw [List.foldl_cons, hins,
      ih (od ++ [(x, f x)]) (List.Nodup.of_cons hnd) (by
        intro k hk p hp
        rcases List.mem_append.mp hp with h | h
        · exact hfresh k (List.mem_cons_of_mem x hk) p h
        · have hpx : p = (x, f x) := by simpa using h
          rw [hpx]
          intro he
          apply (List.nodup_cons.mp hnd).1
          rw [show x = k from he]
          exact hk)]
    simp

theorem posOf_get (l : List String) (hl : l.Nodup) :
    ∀ (r : Nat) (hr : r < l.length), posOf l (l.get ⟨r, hr⟩) = r := by
  induction l with
  | nil => intro r hr; simp at hr
  | cons x xs ih =>
    intro r hr
    cases r with
    | zero => simp [posOf]
    | succ n =>
      have hn : n < xs.length := by simpa using hr
      have hx : ¬ x = xs.get ⟨n, hn⟩ := by
        intro he
        apply (List.nodup_cons.mp hl).1
        rw [he]
        exact xs.get_mem n hn
      show (if x = xs.get ⟨n, hn⟩ then 0 else posOf xs (xs.get ⟨n, hn⟩) + 1) = n + 1
      rw [if_neg hx, ih (List.Nodup.of_cons hl) n hn]

theorem maskedW_dims (S : StdBasin var w b d0 d1 d2 d3 rd b0 b1 regs ts zs yhs xhs)
    (r : Nat) : (maskedW var w b r).dims = [d1, d2, d3] := by
  have hem : (expandedMask var b r).dims = [d1, d2, d3] := by
    rw [expandedMask_dims, S.hvd]; rfl
  show dUnionDims w (expandedMask var b r) = [d1, d2, d3]
  rw [dUnionDims_subset_eq, S.hwd]
  intro d hd
  rw [hem] at hd
  rw [S.hwd]
  exact hd

theorem kernel_shape (S : StdBasin var w b d0 d1 d2 d3 rd b0 b1 regs ts zs yhs xhs)
    (A tw : DataArray) (hAd : A.dims = [d0, d1, d2, d3]) (htwd : tw.dims = [d1, d2, d3]) :
    (ddiv (sumOver (dmul A tw) [d2, d3]) (sumOver tw [d2, d3])).dims = [d0, d1]
    ∧ (ddiv (sumOver (dmul A tw) [d2, d3]) (sumOver tw [d2, d3])).size d0 = A.size d0
    ∧ (ddiv (sumOver (dmul A tw) [d2, d3]) (sumOver tw [d2, d3])).size d1 = A.size d1 := by
  have hmul : (dmul A tw).dims = [d0, d1, d2, d3] := by
    show dUnionDims A tw = _
    rw [dUnionDims_subset_eq, hAd]
    intro d hd
    rw [htwd] at hd
    rw [hAd]
    simp only [List.mem_cons, List.not_mem_nil, or_false] at hd ⊢
    tauto
  have hnum : (sumOver (dmul A tw) [d2, d3]).dims = [d0, d1] := by
    show (dmul A tw).dims.filter _ = _
    rw [hmul]
    simp [S.d02, S.d03, S.d12, S.d13]
  have hden : (sumOver tw [d2, d3]).dims = [d1] := by
    show tw.dims.filter _ = _
    rw [htwd]
    simp [S.d12, S.d13]
  refine ⟨?_, ?_, ?_⟩
  · show dUnionDims (sumOver (dmul A tw) [d2, d3]) (sumOver tw [d2, d3]) = _
    rw [dUnionDims_subset_eq, hnum]
    intro d hd
    rw [hden] at hd
    rw [hnum]
    simp only [List.mem_cons, List.not_mem_nil, or_false] at hd ⊢
    tauto
  · show unionSize (sumOver (dmul A tw) [d2, d3]) (sumOver tw [d2, d3]) d0 = _
    unfold unionSize
    rw [if_pos (by rw [hnum]; simp : d0 ∈ (sumOver (dmul A tw) [d2, d3]).dims)]
    show unionSize A tw d0 = A.size d0
    unfold unionSize
    rw [if_pos (by rw [hAd]; simp : d0 ∈ A.dims)]
  · show unionSize (sumOver (dmul A tw) [d2, d3]) (sumOver tw [d2, d3]) d1 = _
    unfold unionSize
    rw [if_pos (by rw [hnum]; simp : d1 ∈ (sumOver (dmul A tw) [d2, d3]).dims)]
    show unionSize A tw d1 = A.size d1
    unfold unionSize
    rw [if_pos (by rw [hAd]; simp : d1 ∈ A.dims)]

theorem rmse_row_dims (S : StdBasin var w b d0 d1 d2 d3 rd b0 b1 regs ts zs yhs xhs)
    (r : Nat) : (rmseKernel var (maskedW var w b r) d2 d3).dims = [d0, d1] :=
  (kernel_shape S (dsq var) (maskedW var w b r) S.hvd (maskedW_dims S r)).1

theorem rmse_row_size0 (S : StdBasin var w b d0 d1 d2 d3 rd b0 b1 regs ts zs yhs xhs)
    (r : Nat) : (rmseKernel var (maskedW var w b r) d2 d3).size d0 = var.size d0 :=
  (kernel_shape S (dsq var) (maskedW var w b r) S.hvd (maskedW_dims S r)).2.1

theorem rmse_row_size1 (S : StdBasin var w b d0 d1 d2 d3 rd b0 b1 regs ts zs yhs xhs)
    (r : Nat) : (rmseKernel var (maskedW var w b r) d2 d3).size d1 = var.size d1 :=
  (kernel_shape S (dsq var) (maskedW var w b r) S.hvd (maskedW_dims S r)).2.2

theorem mean_row_dims (S : StdBasin var w b d0 d1 d2 d3 rd b0 b1 regs ts zs yhs xhs)
    (r : Nat) : (meanKernel var (maskedW var w b r) d2 d3).dims = [d0, d1] :=
  (kernel_shape S var (maskedW var w b r) S.hvd (maskedW_dims S r)).1

theorem mean_row_size0 (S : StdBasin var w b d0 d1 d2 d3 rd b0 b1 regs ts zs yhs xhs)
    (r : Nat) : (meanKernel var (maskedW var w b r) d2 d3).size d0 = var.size d0 :=
  (kernel_shape S var (maskedW var w b r) S.hvd (maskedW_dims S r)).2.1

theorem mean_row_size1 (S : StdBasin var w b d0 d1 d2 d3 rd b0 b1 regs ts zs yhs xhs)
    (r : Nat) : (meanKernel var (maskedW var w b r) d2 d3).size d1 = var.size d1 :=
  (kernel_shape S var (maskedW var w b r) S.hvd (maskedW_dims S r)).2.2

theorem mkOut_eq (S : StdBasin var w b d0 d1 d2 d3 rd b0 b1 regs ts zs yhs xhs)
    (row : Nat → DataArray)
    (hrowd : ∀ r, (row r).dims = [d0, d1])
    (hrow0 : ∀ r, (row r).size d0 = var.size d0)
    (hrow1 : ∀ r, (row r).size d1 = var.size d1) :
    mkOut var b regs (regs.map fun lbl => (lbl, row (posOf regs lbl))) =
      .ok (basinOutGeneric regs ts zs rd d0 d1 (var.size d0) (var.size d1) row) := by
  have hkeys : ∀ (l : List String),
      (l.map fun lbl => (lbl, row (posOf regs lbl))).map Prod.fst = l := by
    intro l
    induction l with
    | nil => rfl
    | cons a as ih => simp only [List.map_cons, ih]
  simp only [mkOut, S.hbd, S.hvd, S.ht, S.hz]
  have hcond : ((regs.map fun lbl => (lbl, row (posOf regs lbl))).map Prod.fst).length =
        regs.length
      ∧ ts.length = var.size d0 ∧ zs.length = var.size d1
      ∧ (regs.map fun lbl => (lbl, row (posOf regs lbl))).all
          (fun p => p.2.dims.map p.2.size == [var.size d0, var.size d1]) := by
    refine ⟨by rw [hkeys regs], S.htlen, S.hzlen, ?_⟩
    rw [List.all_eq_true]
    intro p hp
    obtain ⟨lbl, hlbl, hplbl⟩ := List.mem_map.mp hp
    rw [← hplbl]
    show ((row (posOf regs lbl)).dims.map (row (posOf regs lbl)).size ==
      [var.size d0, var.size d1]) = true
    rw [hrowd, List.map_cons, List.map_cons, List.map_nil, hrow0, hrow1]
    exact beq_self_eq_true _
  rw [if_pos hcond]
  congr 1
  apply DataArray.ext
  · rfl
  · rfl
  · funext d
    show (if d = rd then some ((regs.map fun lbl => (lbl, row (posOf regs lbl))).map Prod.fst)
      else if d = d0 then some ts else if d = d1 then some zs else none) = _
    rw [hkeys regs]
    rfl
  · funext i
    show (match (regs.map fun lbl => (lbl, row (posOf regs lbl))).get? (i rd) with
      | some p => p.2.data (updIdx p.2.dims [i d0, i d1] idx0)
      | none => some 0) =
      (match regs.get? (i rd) with
      | some _ => (row (i rd)).data (updIdx [d0, d1] [i d0, i d1] idx0)
      | none => some 0)
    rw [List.get?_map]
    cases hget : regs.get? (i rd) with
    | none => rfl
    | some lbl =>
      obtain ⟨hlt, hgeteq⟩ := List.get?_eq_some.mp hget
      have hpos : posOf regs lbl = i rd := by
        rw [← hgeteq]
        exact posOf_get regs S.hnd _ hlt
      show (row (posOf regs lbl)).data (updIdx (row (posOf regs lbl)).dims [i d0, i d1] idx0) =
        (row (i rd)).data (updIdx [d0, d1] [i d0, i d1] idx0)
      rw [hrowd, hpos]

theorem basinBranch_spec (kernel : DataArray → DataArray)
    (S : StdBasin var w b d0 d1 d2 d3 rd b0 b1 regs ts zs yhs xhs)
    (hrowd : ∀ r, (kernel (maskedW var w b r)).dims = [d0, d1])
    (hrow0 : ∀ r, (kernel (maskedW var w b r)).size d0 = var.size d0)
    (hrow1 : ∀ r, (kernel (maskedW var w b r)).size d1 = var.size d1) :
    basinBranch kernel var w b =
      .ok (basinOutGeneric regs ts zs rd d0 d1 (var.size d0) (var.size d1)
        fun r => kernel (maskedW var w b r)) := by
  have hlen3 : ¬ w.dims.length ≠ 3 := by rw [S.hwd]; simp
  simp only [basinBranch, S.hreg]
  rw [if_neg hlen3]
  rw [basinLoop_ok kernel regs (region3dOf_eq S) regs []]
  rw [foldl_odInsert_fresh
    (fun lbl => kernel (whereOne w (expandedMask var b (posOf regs lbl)))) regs [] S.hnd
    (by intro k _ p hp; simp at hp)]
  rw [List.nil_append]
  exact mkOut_eq S (fun r => kernel (maskedW var w b r)) hrowd hrow0 hrow1

theorem rmse_basin_spec (S : StdBasin var w b d0 d1 d2 d3 rd b0 b1 regs ts zs yhs xhs) :
    HorizontalMeanRmse_da var (d2, d3) (some w) (some b) =
      .ok (basinOutGeneric regs ts zs rd d0 d1 (var.size d0) (var.size d1)
        fun r => rmseKernel var (maskedW var w b r) d2 d3) := by
  have h2 : d2 ∈ var.dims := by rw [S.hvd]; simp
  have h3 : d3 ∈ var.dims := by rw [S.hvd]; simp
  have hcall : HorizontalMeanRmse_da var (d2, d3) (some w) (some b) =
      basinBranch (fun tw => rmseKernel var tw d2 d3) var w b := by
    simp [HorizontalMeanRmse_da, h2, h3]
  rw [hcall]
  exact basinBranch_spec _ S (fun r => rmse_row_dims S r) (fun r => rmse_row_size0 S r)
    (fun r => rmse_row_size1 S r)

theorem diff_basin_spec (S : StdBasin var w b d0 d1 d2 d3 rd b0 b1 regs ts zs yhs xhs) :
    HorizontalMeanDiff_da var (d2, d3) (some w) (some b) =
      .ok (basinOutGeneric regs ts zs rd d0 d1 (var.size d0) (var.size d1)
        fun r => meanKernel var (maskedW var w b r) d2 d3) := by
  have h2 : d2 ∈ var.dims := by rw [S.hvd]; simp
  have h3 : d3 ∈ var.dims := by rw [S.hvd]; simp
  have hcall : HorizontalMeanDiff_da var (d2, d3) (some w) (some b) =
      basinBranch (fun tw => meanKernel var tw d2 d3) var w b := by
    simp [HorizontalMeanDiff_da, h2, h3]
  rw [hcall]
  exact basinBranch_spec _ S (fun r => mean_row_dims S r) (fun r => mean_row_size0 S r)
    (fun r => mean_row_size1 S r)

theorem vDiv_zero (x : Val) : vDiv x (some 0) = none := by
  cases x <;> simp [vDiv]

theorem sumOver_pair_data_congr (a a' : DataArray) (e2 e3 : String) (i : String → Nat)
    (hs2 : a.size e2 = a'.size e2) (hs3 : a.size e3 = a'.size e3)
    (hd : ∀ t, a.data (updIdx [e2, e3] t i) = a'.data (updIdx [e2, e3] t i)) :
    (sumOver a [e2, e3]).data i = (sumOver a' [e2, e3]).data i := by
  show some (skipSum ((tuples [a.size e2, a.size e3]).map fun t => a.data (updIdx [e2, e3] t i)))
    = some (skipSum ((tuples [a'.size e2, a'.size e3]).map fun t => a'.data (updIdx [e2, e3] t i)))
  rw [hs2, hs3]
  congr 1
  exact skipSum_map_congr _ _ _ fun t _ => hd t

theorem basinOutGeneric_row (regs ts zs : List String) (rd d0 d1 : String) (s0 s1 : Nat)
    (row : Nat → DataArray) (r t z : Nat) (hr : r < regs.length)
    (h0rd : ¬ d0 = rd) (h1rd : ¬ d1 = rd) (h10 : ¬ d1 = d0) :
    (basinOutGeneric regs ts zs rd d0 d1 s0 s1 row).data (updIdx [rd, d0, d1] [r, t, z] idx0) =
      (row r).data (updIdx [d0, d1] [t, z] idx0) := by
  have hird : updIdx [rd, d0, d1] [r, t, z] idx0 rd = r := by simp [updIdx]
  have hid0 : updIdx [rd, d0, d1] [r, t, z] idx0 d0 = t := by simp [updIdx, h0rd]
  have hid1 : updIdx [rd, d0, d1] [r, t, z] idx0 d1 = z := by simp [updIdx, h1rd, h10]
  show (match regs.get? (updIdx [rd, d0, d1] [r, t, z] idx0 rd) with
    | some _ => (row (updIdx [rd, d0, d1] [r, t, z] idx0 rd)).data
        (updIdx [d0, d1] [updIdx [rd, d0, d1] [r, t, z] idx0 d0,
          updIdx [rd, d0, d1] [r, t, z] idx0 d1] idx0)
    | none => some 0) = _
  rw [hird, hid0, hid1, List.get?_eq_get hr]

theorem kernel_masked_eq_global_data
    (S : StdBasin var w b d0 d1 d2 d3 rd b0 b1 regs ts zs yhs xhs)
    (A : DataArray) (hAd : A.dims = [d0, d1, d2, d3]) (r : Nat)
    (hone : ∀ j, (expandedMask var b r).data j = some 1) (i : String → Nat) :
    (ddiv (sumOver (dmul A (maskedW var w b r)) [d2, d3])
      (sumOver (maskedW var w b r) [d2, d3])).data i =
    (ddiv (sumOver (dmul A w) [d2, d3]) (sumOver w [d2, d3])).data i := by
  have htwdat : ∀ j, (maskedW var w b r).data j = w.data j := fun j => by
    show (if (expandedMask var b r).data j = some 1 then w.data j else none) = w.data j
    rw [hone, if_pos rfl]
  have hA2 : d2 ∈ A.dims := by rw [hAd]; simp
  have hA3 : d3 ∈ A.dims := by rw [hAd]; simp
  have hw2 : d2 ∈ w.dims := by rw [S.hwd]; simp
  have hw3 : d3 ∈ w.dims := by rw [S.hwd]; simp
  have hX : (sumOver (dmul A (maskedW var w b r)) [d2, d3]).data i =
      (sumOver (dmul A w) [d2, d3]).data i := by
    apply sumOver_pair_data_congr
    · show unionSize A (maskedW var w b r) d2 = unionSize A w d2
      unfold unionSize
      rw [if_pos hA2, if_pos hA2]
    · show unionSize A (maskedW var w b r) d3 = unionSize A w d3
      unfold unionSize
      rw [if_pos hA3, if_pos hA3]
    · intro t
      show vMul (A.data _) ((maskedW var w b r).data _) = vMul (A.data _) (w.data _)
      rw [htwdat]
  have hY : (sumOver (maskedW var w b r) [d2, d3]).data i = (sumOver w [d2, d3]).data i := by
    apply sumOver_pair_data_congr
    · show unionSize w (expandedMask var b r) d2 = w.size d2
      unfold unionSize
      rw [if_pos hw2]
    · show unionSize w (expandedMask var b r) d3 = w.size d3
      unfold unionSize
      rw [if_pos hw3]
    · intro t
      exact htwdat _
  show vDiv ((sumOver (dmul A (maskedW var w b r)) [d2, d3]).data i)
      ((sumOver (maskedW var w b r) [d2, d3]).data i) = _
  rw [hX, hY]
  rfl

/-- C2 (confirmed).  In basin mode, for every basin index `r`, both reducers
restrict the weights to exactly the cells where the expanded 3-D mask equals
one — cells outside the basin become missing (`none`), not zero, so they are
excluded both from the weighted sums and from the total-weight normalization —
and the basin's row equals the corresponding no-basin weighted reduction
applied to those masked weights. -/
theorem C2_basin_masks_weights
    (S : StdBasin var w b d0 d1 d2 d3 rd b0 b1 regs ts zs yhs xhs)
    (r : Nat) (hr : r < regs.length) :
    (∀ i, (maskedW var w b r).data i =
      if (expandedMask var b r).data i = some 1 then w.data i else none)
    ∧ (∀ t z, resData (HorizontalMeanRmse_da var (d2, d3) (some w) (some b))
          (updIdx [rd, d0, d1] [r, t, z] idx0) =
        resData (HorizontalMeanRmse_da var (d2, d3) (some (maskedW var w b r)) none)
          (updIdx [d0, d1] [t, z] idx0))
    ∧ (∀ t z, resData (HorizontalMeanDiff_da var (d2, d3) (some w) (some b))
          (updIdx [rd, d0, d1] [r, t, z] idx0) =
        resData (HorizontalMeanDiff_da var (d2, d3) (some (maskedW var w b r)) none)
          (updIdx [d0, d1] [t, z] idx0)) := by
  have h2 : d2 ∈ var.dims := by rw [S.hvd]; simp
  have h3 : d3 ∈ var.dims := by rw [S.hvd]; simp
  have hm2 : d2 ∈ (maskedW var w b r).dims := by rw [maskedW_dims S r]; simp
  have hm3 : d3 ∈ (maskedW var w b r).dims := by rw [maskedW_dims S r]; simp
  refine ⟨fun i => rfl, fun t z => ?_, fun t z => ?_⟩
  · rw [rmse_basin_spec S, rmse_global_eq var (maskedW var w b r) d2 d3 h2 h3 hm2 hm3]
    show some ((basinOutGeneric regs ts zs rd d0 d1 (var.size d0) (var.size d1)
      fun j => rmseKernel var (maskedW var w b j) d2 d3).data
        (updIdx [rd, d0, d1] [r, t, z] idx0)) = _
    rw [basinOutGeneric_row regs ts zs rd d0 d1 _ _ _ r t z hr
      (fun h => S.rd0 h.symm) (fun h => S.rd1 h.symm) (fun h => S.d01 h.symm)]
    rfl
  · rw [diff_basin_spec S, diff_global_eq var (maskedW var w b r) d2 d3 h2 h3 hm2 hm3]
    show some ((basinOutGeneric regs ts zs rd d0 d1 (var.size d0) (var.size d1)
      fun j => meanKernel var (maskedW var w b j) d2 d3).data
        (updIdx [rd, d0, d1] [r, t, z] idx0)) = _
    rw [basinOutGeneric_row regs ts zs rd d0 d1 _ _ _ r t z hr
      (fun h => S.rd0 h.symm) (fun h => S.rd1 h.symm) (fun h => S.d01 h.symm)]
    rfl

/-- C3 (confirmed).  Under the basin-mode preconditions, the returned array of
either reducer has dimensions `(region, time, z_l)` with sizes (basin count,
time length, vertical layer count), and its basin axis is labeled with the
region values (the embedding keeps coordinates as their string
representations) in the mask set's native order. -/
theorem C3_basin_output_shape
    (S : StdBasin var w b d0 d1 d2 d3 rd b0 b1 regs ts zs yhs xhs) :
    (resDims (HorizontalMeanRmse_da var (d2, d3) (some w) (some b)) = [rd, d0, d1]
      ∧ resSize (HorizontalMeanRmse_da var (d2, d3) (some w) (some b)) rd = regs.length
      ∧ resSize (HorizontalMeanRmse_da var (d2, d3) (some w) (some b)) d0 = ts.length
      ∧ resSize (HorizontalMeanRmse_da var (d2, d3) (some w) (some b)) d1 = zs.length
      ∧ resCoord (HorizontalMeanRmse_da var (d2, d3) (some w) (some b)) rd = some regs)
    ∧ (resDims (HorizontalMeanDiff_da var (d2, d3) (some w) (some b)) = [rd, d0, d1]
      ∧ resSize (HorizontalMeanDiff_da var (d2, d3) (some w) (some b)) rd = regs.length
      ∧ resSize (HorizontalMeanDiff_da var (d2, d3) (some w) (some b)) d0 = ts.length
      ∧ resSize (HorizontalMeanDiff_da var (d2, d3) (some w) (some b)) d1 = zs.length
      ∧ resCoord (HorizontalMeanDiff_da var (d2, d3) (some w) (some b)) rd = some regs) := by
  rw [rmse_basin_spec S, diff_basin_spec S]
  have hsz : ∀ row : Nat → DataArray,
      (basinOutGeneric regs ts zs rd d0 d1 (var.size d0) (var.size d1) row).size d0 = ts.length
      ∧ (basinOutGeneric regs ts zs rd d0 d1 (var.size d0) (var.size d1) row).size d1
        = zs.length := by
    intro row
    constructor
    · show (if d0 = rd then regs.length else if d0 = d0 then var.size d0
        else if d0 = d1 then var.size d1 else 0) = ts.length
      rw [if_neg (fun h => S.rd0 h.symm), if_pos rfl, S.htlen]
    · show (if d1 = rd then regs.length else if d1 = d0 then var.size d0
        else if d1 = d1 then var.size d1 else 0) = zs.length
      rw [if_neg (fun h => S.rd1 h.symm), if_neg (fun h => S.d01 h.symm), if_pos rfl, S.hzlen]
  refine ⟨⟨rfl, by show (if rd = rd then regs.length else _) = _; rw [if_pos rfl],
      (hsz _).1, (hsz _).2, by show (if rd = rd then some regs else _) = _; rw [if_pos rfl]⟩,
    ⟨rfl, by show (if rd = rd then regs.length else _) = _; rw [if_pos rfl],
      (hsz _).1, (hsz _).2, by show (if rd = rd then some regs else _) = _; rw [if_pos rfl]⟩⟩

/-- C4 (confirmed).  With 3-D weights and a basin whose mask is all-ones over
the whole domain, that basin's row of the basin-mode output equals the global
(no-basin) weighted result on the same field and weights, for both reducers;
the output's leading axis has length equal to the basin count. -/
theorem C4_allones_basin_equals_global
    (S : StdBasin var w b d0 d1 d2 d3 rd b0 b1 regs ts zs yhs xhs)
    (r : Nat) (hr : r < regs.length)
    (hone : ∀ j, (expandedMask var b r).data j = some 1) :
    resSize (HorizontalMeanRmse_da var (d2, d3) (some w) (some b)) rd = regs.length
    ∧ (∀ t z, resData (HorizontalMeanRmse_da var (d2, d3) (some w) (some b))
          (updIdx [rd, d0, d1] [r, t, z] idx0) =
        resData (HorizontalMeanRmse_da var (d2, d3) (some w) none)
          (updIdx [d0, d1] [t, z] idx0))
    ∧ (∀ t z, resData (HorizontalMeanDiff_da var (d2, d3) (some w) (some b))
          (updIdx [rd, d0, d1] [r, t, z] idx0) =
        resData (HorizontalMeanDiff_da var (d2, d3) (some w) none)
          (updIdx [d0, d1] [t, z] idx0)) := by
  have h2 : d2 ∈ var.dims := by rw [S.hvd]; simp
  have h3 : d3 ∈ var.dims := by rw [S.hvd]; simp
  have hw2 : d2 ∈ w.dims := by rw [S.hwd]; simp
  have hw3 : d3 ∈ w.dims := by rw [S.hwd]; simp
  refine ⟨?_, fun t z => ?_, fun t z => ?_⟩
  · rw [rmse_basin_spec S]
    show (if rd = rd then regs.length else _) = _
    rw [if_pos rfl]
  · rw [rmse_basin_spec S, rmse_global_eq var w d2 d3 h2 h3 hw2 hw3]
    show some ((basinOutGeneric regs ts zs rd d0 d1 (var.size d0) (var.size d1)
      fun j => rmseKernel var (maskedW var w b j) d2 d3).data
        (updIdx [rd, d0, d1] [r, t, z] idx0)) = _
    rw [basinOutGeneric_row regs ts zs rd d0 d1 _ _ _ r t z hr
      (fun h => S.rd0 h.symm) (fun h => S.rd1 h.symm) (fun h => S.d01 h.symm)]
    exact congrArg some (kernel_masked_eq_global_data S (dsq var) S.hvd r hone _)
  · rw [diff_basin_spec S, diff_global_eq var w d2 d3 h2 h3 hw2 hw3]
    show some ((basinOutGeneric regs ts zs rd d0 d1 (var.size d0) (var.size d1)
      fun j => meanKernel var (maskedW var w b j) d2 d3).data
        (updIdx [rd, d0, d1] [r, t, z] idx0)) = _
    rw [basinOutGeneric_row regs ts zs rd d0 d1 _ _ _ r t z hr
      (fun h => S.rd0 h.symm) (fun h => S.rd1 h.symm) (fun h => S.d01 h.symm)]
    exact congrArg some (kernel_masked_eq_global_data S var S.hvd r hone _)

/-- C7 (confirmed).  In every weighted invocation of either reducer, a zero
total weight for a reduction cell (for example a basin whose mask selects no
cells) raises no exception: the call still returns an array, and that cell's
entry is the undefined/missing value. -/
theorem C7_zero_weight_gives_missing
    (S : StdBasin var w b d0 d1 d2 d3 rd b0 b1 regs ts zs yhs xhs)
    (r : Nat) (hr : r < regs.length) :
    (isOk (HorizontalMeanRmse_da var (d2, d3) (some w) none) = true
      ∧ isOk (HorizontalMeanDiff_da var (d2, d3) (some w) none) = true
      ∧ isOk (HorizontalMeanRmse_da var (d2, d3) (some w) (some b)) = true
      ∧ isOk (HorizontalMeanDiff_da var (d2, d3) (some w) (some b)) = true)
    ∧ (∀ i, (sumOver w [d2, d3]).data i = some 0 →
        resData (HorizontalMeanRmse_da var (d2, d3) (some w) none) i = some none
        ∧ resData (HorizontalMeanDiff_da var (d2, d3) (some w) none) i = some none)
    ∧ (∀ t z, (sumOver (maskedW var w b r) [d2, d3]).data (updIdx [d0, d1] [t, z] idx0)
          = some 0 →
        resData (HorizontalMeanRmse_da var (d2, d3) (some w) (some b))
          (updIdx [rd, d0, d1] [r, t, z] idx0) = some none
        ∧ resData (HorizontalMeanDiff_da var (d2, d3) (some w) (some b))
          (updIdx [rd, d0, d1] [r, t, z] idx0) = some none) := by
  have h2 : d2 ∈ var.dims := by rw [S.hvd]; simp
  have h3 : d3 ∈ var.dims := by rw [S.hvd]; simp
  have hw2 : d2 ∈ w.dims := by rw [S.hwd]; simp
  have hw3 : d3 ∈ w.dims := by rw [S.hwd]; simp
  refine ⟨⟨?_, ?_, ?_, ?_⟩, fun i hzero => ⟨?_, ?_⟩, fun t z hzero => ⟨?_, ?_⟩⟩
  · rw [rmse_global_eq var w d2 d3 h2 h3 hw2 hw3]; rfl
  · rw [diff_global_eq var w d2 d3 h2 h3 hw2 hw3]; rfl
  · rw [rmse_basin_spec S]; rfl
  · rw [diff_basin_spec S]; rfl
  · rw [rmse_global_eq var w d2 d3 h2 h3 hw2 hw3]
    show some (vDiv ((sumOver (dmul (dsq var) w) [d2, d3]).data i)
      ((sumOver w [d2, d3]).data i)) = some none
    rw [hzero, vDiv_zero]
  · rw [diff_global_eq var w d2 d3 h2 h3 hw2 hw3]
    show some (vDiv ((sumOver (dmul var w) [d2, d3]).data i)
      ((sumOver w [d2, d3]).data i)) = some none
    rw [hzero, vDiv_zero]
  · rw [rmse_basin_spec S]
    show some ((basinOutGeneric regs ts zs rd d0 d1 (var.size d0) (var.size d1)
      fun j => rmseKernel var (maskedW var w b j) d2 d3).data
        (updIdx [rd, d0, d1] [r, t, z] idx0)) = some none
    rw [basinOutGeneric_row regs ts zs rd d0 d1 _ _ _ r t z hr
      (fun h => S.rd0 h.symm) (fun h => S.rd1 h.symm) (fun h => S.d01 h.symm)]
    show some (vDiv ((sumOver (dmul (dsq var) (maskedW var w b r)) [d2, d3]).data _)
      ((sumOver (maskedW var w b r) [d2, d3]).data _)) = some none
    rw [hzero, vDiv_zero]
  · rw [diff_basin_spec S]
    show some ((basinOutGeneric regs ts zs rd d0 d1 (var.size d0) (var.size d1)
      fun j => meanKernel var (maskedW var w b j) d2 d3).data
        (updIdx [rd, d0, d1] [r, t, z] idx0)) = some none
    rw [basinOutGeneric_row regs ts zs rd d0 d1 _ _ _ r t z hr
      (fun h => S.rd0 h.symm) (fun h => S.rd1 h.symm) (fun h => S.d01 h.symm)]
    show some (vDiv ((sumOver (dmul var (maskedW var w b r)) [d2, d3]).data _)
      ((sumOver (maskedW var w b r) [d2, d3]).data _)) = some none
    rw [hzero, vDiv_zero]

end BasinLemmas

theorem cexStd : StdBasin cexVar4 cexW3 cexBasins "time" "z_l" "yh" "xh" "region" "yh" "xh"
    ["Atlantic"] ["0"] ["5"] ["10"] ["20"] :=
  ⟨rfl, rfl, rfl, rfl, by decide, rfl, rfl, rfl, rfl, rfl, rfl, rfl, rfl,
    by decide, by decide, by decide, by decide, by decide, by decide, by decide, by decide⟩

/-- Witness for C2 at the concrete single-basin instance. -/
theorem C2_basin_masks_weights_witness :
    (maskedW cexVar4 cexW3 cexBasins 0).data idx0 =
      (if (expandedMask cexVar4 cexBasins 0).data idx0 = some 1
       then cexW3.data idx0 else none) :=
  (C2_basin_masks_weights cexStd 0 (by decide)).1 idx0

/-- Witness for C3 at the concrete single-basin instance. -/
theorem C3_basin_output_shape_witness :
    resDims (HorizontalMeanRmse_da cexVar4 ("yh", "xh") (some cexW3) (some cexBasins)) =
      ["region", "time", "z_l"] :=
  (C3_basin_output_shape cexStd).1.1

/-- Witness for C4 at the concrete all-ones basin. -/
theorem C4_allones_basin_equals_global_witness :
    resData (HorizontalMeanRmse_da cexVar4 ("yh", "xh") (some cexW3) (some cexBasins))
      (updIdx ["region", "time", "z_l"] [0, 0, 0] idx0) =
    resData (HorizontalMeanRmse_da cexVar4 ("yh", "xh") (some cexW3) none)
      (updIdx ["time", "z_l"] [0, 0] idx0) :=
  (C4_allones_basin_equals_global cexStd 0 (by decide) (fun _ => rfl)).2.1 0 0

/-- Witness for C7 at the concrete single-basin instance. -/
theorem C7_zero_weight_gives_missing_witness :
    isOk (HorizontalMeanRmse_da cexVar4 ("yh", "xh") (some cexW3) (some cexBasins)) = true :=
  (C7_zero_weight_gives_missing cexStd 0 (by decide)).1.2.2.1

/-- C5 (amended).  Both reducers check the field's two dimension names first
and raise the missing-dimension error on a failure, in every mode; when
weights are supplied *without basins*, the weights' dimension names are
likewise checked.  (In basin mode the weights' dimension names are not
checked — see the counterexample.) -/
theorem C5_missing_dim_checks (var w : DataArray) (d2 d3 : String)
    (wopt bopt : Option DataArray) :
    (d2 ∉ var.dims →
      HorizontalMeanRmse_da var (d2, d3) wopt bopt = .error .missingDim
      ∧ HorizontalMeanDiff_da var (d2, d3) wopt bopt = .error .missingDim)
    ∧ (d2 ∈ var.dims → d3 ∉ var.dims →
      HorizontalMeanRmse_da var (d2, d3) wopt bopt = .error .missingDim
      ∧ HorizontalMeanDiff_da var (d2, d3) wopt bopt = .error .missingDim)
    ∧ (d2 ∈ var.dims → d3 ∈ var.dims → d2 ∉ w.dims →
      HorizontalMeanRmse_da var (d2, d3) (some w) none = .error .missingDim
      ∧ HorizontalMeanDiff_da var (d2, d3) (some w) none = .error .missingDim)
    ∧ (d2 ∈ var.dims → d3 ∈ var.dims → d2 ∈ w.dims → d3 ∉ w.dims →
      HorizontalMeanRmse_da var (d2, d3) (some w) none = .error .missingDim
      ∧ HorizontalMeanDiff_da var (d2, d3) (some w) none = .error .missingDim) := by
  refine ⟨fun h1 => ⟨?_, ?_⟩, fun h1 h2 => ⟨?_, ?_⟩, fun h1 h2 h3 => ⟨?_, ?_⟩,
    fun h1 h2 h3 h4 => ⟨?_, ?_⟩⟩
  · simp [HorizontalMeanRmse_da, h1]
  · simp [HorizontalMeanDiff_da, h1]
  · simp [HorizontalMeanRmse_da, h1, h2]
  · simp [HorizontalMeanDiff_da, h1, h2]
  · simp [HorizontalMeanRmse_da, h1, h2, h3]
  · simp [HorizontalMeanDiff_da, h1, h2, h3]
  · simp [HorizontalMeanRmse_da, h1, h2, h3, h4]
  · simp [HorizontalMeanDiff_da, h1, h2, h3, h4]

/-- Witness for C5: a field without the `yh` dimension raises the
missing-dimension error. -/
theorem C5_missing_dim_checks_witness :
    HorizontalMeanRmse_da cexVarNoYh ("yh", "xh") none none = .error .missingDim :=
  ((C5_missing_dim_checks cexVarNoYh cexW3 "yh" "xh" none none).1 (by decide)).1

/-- Counterexample for C5: in basin mode the weights' dimension names are not
checked.  With weights whose dimensions are `(z_l, yh, foo)` — `xh` absent —
the basin-mode call does not raise the missing-dimension error at all; it
proceeds past the region/3-D checks and the per-basin reduction and only
fails later with a structural shape error when the (extra-dimensional)
per-basin result cannot be copied into the output rows. -/
theorem C5_basin_weights_unchecked_cex :
    "xh" ∉ cexWBad.dims
    ∧ HorizontalMeanRmse_da cexVar4 ("yh", "xh") (some cexWBad) (some cexBasins) =
        .error .structural
    ∧ Err.structural ≠ Err.missingDim := by
  refine ⟨by decide, rfl, by decide⟩

/-- C6 (amended).  Supplying basins without weights always fails and returns
no result; the error is the invalid-combination error whenever the field
passes its own dimension checks (which the source performs first — a field
missing a required dimension fails with the missing-dimension error
instead). -/
theorem C6_basins_require_weights (var b : DataArray) (d2 d3 : String) :
    (d2 ∈ var.dims → d3 ∈ var.dims →
      HorizontalMeanRmse_da var (d2, d3) none (some b) = .error .basinsWithoutWeights
      ∧ HorizontalMeanDiff_da var (d2, d3) none (some b) = .error .basinsWithoutWeights)
    ∧ isOk (HorizontalMeanRmse_da var (d2, d3) none (some b)) = false
    ∧ isOk (HorizontalMeanDiff_da var (d2, d3) none (some b)) = false := by
  refine ⟨fun h1 h2 => ⟨?_, ?_⟩, ?_, ?_⟩
  · simp [HorizontalMeanRmse_da, h1, h2]
  · simp [HorizontalMeanDiff_da, h1, h2]
  · by_cases h1 : d2 ∈ var.dims <;> by_cases h2 : d3 ∈ var.dims <;>
      simp [HorizontalMeanRmse_da, isOk, h1, h2]
  · by_cases h1 : d2 ∈ var.dims <;> by_cases h2 : d3 ∈ var.dims <;>
      simp [HorizontalMeanDiff_da, isOk, h1, h2]

/-- Witness for C6 at a concrete field and basin set. -/
theorem C6_basins_require_weights_witness :
    HorizontalMeanRmse_da cexVar4 ("yh", "xh") none (some cexBasins) =
      .error .basinsWithoutWeights :=
  ((C6_basins_require_weights cexVar4 cexBasins "yh" "xh").1 (by decide) (by decide)).1

/-- Counterexample for C6 as literally stated: when the field also lacks a
required dimension, the basins-without-weights invocation fails with the
missing-dimension error (checked first), not the invalid-combination error. -/
theorem C6_precedence_cex :
    HorizontalMeanDiff_da cexVarNoYh ("yh", "xh") none (some cexBasins) = .error .missingDim
    ∧ Err.missingDim ≠ Err.basinsWithoutWeights :=
  ⟨rfl, by decide⟩

/-- C9 (confirmed).  When range coloring is enabled and the observed-flows
mapping assigns the section's label a `(min, max)` range, the Panel Plotter
colors the line green exactly when the section data's mean lies within the
range, and red otherwise. -/
theorem C9_panel_color_rule (sec : PlotSection) (obs : List (String × ObsEntry)) (a b : ℚ)
    (h : lookupObs obs sec.label = some (ObsEntry.rangeObs a b)) :
    (plotPanelColor sec obs true = greenColor ↔
      ∃ m, listMean sec.data = some m ∧ min a b ≤ m ∧ m ≤ max a b)
    ∧ (plotPanelColor sec obs true = greenColor ∨ plotPanelColor sec obs true = redColor)
    ∧ (plotPanelColor sec obs true ≠ greenColor → plotPanelColor sec obs true = redColor) := by
  have hgr : greenColor ≠ redColor := by decide
  have hcol : plotPanelColor sec obs true =
      (if inObsRange (listMean sec.data) a b then greenColor else redColor) := by
    simp [plotPanelColor, h]
  have hiff : inObsRange (listMean sec.data) a b = true ↔
      ∃ m, listMean sec.data = some m ∧ min a b ≤ m ∧ m ≤ max a b := by
    cases hm : listMean sec.data with
    | none => simp [inObsRange]
    | some q => simp [inObsRange]
  rw [hcol]
  by_cases hin : inObsRange (listMean sec.data) a b = true
  · rw [if_pos hin]
    exact ⟨iff_of_true rfl (hiff.mp hin), Or.inl rfl, fun hne => absurd rfl hne⟩
  · rw [if_neg hin]
    constructor
    · constructor
      · intro he
        exact absurd he.symm hgr
      · intro hex
        exact absurd (hiff.mpr hex) hin
    · exact ⟨Or.inr rfl, fun _ => rfl⟩

/-- Witness for C9: a mean of 4 inside the observed range (3, 5) is colored
green. -/
theorem C9_panel_color_rule_witness : plotPanelColor cexSec9 cexObs9 true = greenColor :=
  ((C9_panel_color_rule cexSec9 cexObs9 3 5 rfl).1).mpr
    ⟨4, by norm_num [listMean, cexSec9], by norm_num, by norm_num⟩

/-- C8 (amended).  For every basin mask (and the field's vertical-layer count
`L = len(z_l)`), the Region Expander produces a 3-D mask on the field's
dimensions 1..3 of shape (L, mask-dim-0, mask-dim-1), every layer of which is
identical to the 2-D input mask, labeled with the field's vertical coordinate
values and the *field's* horizontal coordinate values (not the weights'; the
expander never reads the weights — see the counterexample). -/
theorem C8_region_expander (var b : DataArray) (d0 d1 d2 d3 rd b0 b1 : String)
    (zs yhs xhs : List String) (r : Nat)
    (hvd : var.dims = [d0, d1, d2, d3])
    (hbd : b.dims = [rd, b0, b1])
    (hz : var.coord "z_l" = some zs) (hy : var.coord "yh" = some yhs)
    (hx : var.coord "xh" = some xhs)
    (hylen : yhs.length = b.size b0) (hxlen : xhs.length = b.size b1)
    (d12 : d1 ≠ d2) (d13 : d1 ≠ d3) (d23 : d2 ≠ d3) :
    region3dOf var b r = .ok (expandedMask var b r)
    ∧ (expandedMask var b r).dims = [d1, d2, d3]
    ∧ (expandedMask var b r).size d1 = zs.length
    ∧ (expandedMask var b r).size d2 = b.size b0
    ∧ (expandedMask var b r).size d3 = b.size b1
    ∧ (expandedMask var b r).coord d1 = var.coord "z_l"
    ∧ (expandedMask var b r).coord d2 = var.coord "yh"
    ∧ (expandedMask var b r).coord d3 = var.coord "xh"
    ∧ (∀ i, (expandedMask var b r).data i =
        b.data fun d => if d = rd then r else if d = b0 then i d2 else if d = b1 then i d3 else 0)
    ∧ (∀ i k, (expandedMask var b r).data (updIdx [d1] [k] i) =
        (expandedMask var b r).data i) := by
  have g1 : var.dims.getD 1 "" = d1 := by rw [hvd]; rfl
  have g2 : var.dims.getD 2 "" = d2 := by rw [hvd]; rfl
  have g3 : var.dims.getD 3 "" = d3 := by rw [hvd]; rfl
  have grd : b.dims.getD 0 "" = rd := by rw [hbd]; rfl
  have gb0 : b.dims.getD 1 "" = b0 := by rw [hbd]; rfl
  have gb1 : b.dims.getD 2 "" = b1 := by rw [hbd]; rfl
  have hdrop : var.dims.drop 1 = [d1, d2, d3] := by rw [hvd]; rfl
  refine ⟨?_, ?_, ?_, ?_, ?_, ?_, ?_, ?_, ?_, ?_⟩
  · simp only [region3dOf, hz, hbd, hdrop, hy, hx]
    rw [if_pos ⟨hylen, hxlen⟩]
  · exact hdrop
  · show (if d1 = var.dims.getD 1 "" then ((var.coord "z_l").getD []).length
      else if d1 = var.dims.getD 2 "" then b.size (b.dims.getD 1 "")
      else if d1 = var.dims.getD 3 "" then b.size (b.dims.getD 2 "") else 0) = zs.length
    rw [g1, if_pos rfl, hz]
    rfl
  · show (if d2 = var.dims.getD 1 "" then ((var.coord "z_l").getD []).length
      else if d2 = var.dims.getD 2 "" then b.size (b.dims.getD 1 "")
      else if d2 = var.dims.getD 3 "" then b.size (b.dims.getD 2 "") else 0) = b.size b0
    rw [g1, g2, gb0, if_neg (fun h => d12 h.symm), if_pos rfl]
  · show (if d3 = var.dims.getD 1 "" then ((var.coord "z_l").getD []).length
      else if d3 = var.dims.getD 2 "" then b.size (b.dims.getD 1 "")
      else if d3 = var.dims.getD 3 "" then b.size (b.dims.getD 2 "") else 0) = b.size b1
    rw [g1, g2, g3, gb1, if_neg (fun h => d13 h.symm), if_neg (fun h => d23 h.symm), if_pos rfl]
  · show (if d1 = var.dims.getD 1 "" then var.coord "z_l"
      else if d1 = var.dims.getD 2 "" then var.coord "yh"
      else if d1 = var.dims.getD 3 "" then var.coord "xh" else none) = var.coord "z_l"
    rw [g1, if_pos rfl]
  · show (if d2 = var.dims.getD 1 "" then var.coord "z_l"
      else if d2 = var.dims.getD 2 "" then var.coord "yh"
      else if d2 = var.dims.getD 3 "" then var.coord "xh" else none) = var.coord "yh"
    rw [g1, g2, if_neg (fun h => d12 h.symm), if_pos rfl]
  · show (if d3 = var.dims.getD 1 "" then var.coord "z_l"
      else if d3 = var.dims.getD 2 "" then var.coord "yh"
      else if d3 = var.dims.getD 3 "" then var.coord "xh" else none) = var.coord "xh"
    rw [g1, g2, g3, if_neg (fun h => d13 h.symm), if_neg (fun h => d23 h.symm), if_pos rfl]
  · intro i
    show b.data (fun d => if d = b.dims.getD 0 "" then r
      else if d = b.dims.getD 1 "" then i (var.dims.getD 2 "")
      else if d = b.dims.getD 2 "" then i (var.dims.getD 3 "") else 0) = _
    exact congrArg b.data (funext fun d => by rw [grd, gb0, gb1, g2, g3])
  · intro i k
    show b.data (fun d => if d = b.dims.getD 0 "" then r
      else if d = b.dims.getD 1 "" then updIdx [d1] [k] i (var.dims.getD 2 "")
      else if d = b.dims.getD 2 "" then updIdx [d1] [k] i (var.dims.getD 3 "") else 0) =
      b.data (fun d => if d = b.dims.getD 0 "" then r
      else if d = b.dims.getD 1 "" then i (var.dims.getD 2 "")
      else if d = b.dims.getD 2 "" then i (var.dims.getD 3 "") else 0)
    have e2 : updIdx [d1] [k] i (var.dims.getD 2 "") = i (var.dims.getD 2 "") := by
      rw [g2]
      simp [updIdx, Ne.symm d12]
    have e3 : updIdx [d1] [k] i (var.dims.getD 3 "") = i (var.dims.getD 3 "") := by
      rw [g3]
      simp [updIdx, Ne.symm d13]
    rw [e2, e3]

/-- Witness for C8 at the concrete instance: the expanded mask carries the
field's `yh` labels. -/
theorem C8_region_expander_witness :
    (expandedMask cexVar4 cexBasins 0).coord "yh" = cexVar4.coord "yh" :=
  (C8_region_expander cexVar4 cexBasins "time" "z_l" "yh" "xh" "region" "yh" "xh"
    ["5"] ["10"] ["20"] 0 rfl rfl rfl rfl rfl rfl rfl
    (by decide) (by decide) (by decide)).2.2.2.2.2.2.1

/-- Counterexample for C8's "horizontal coordinate values of Weights" clause:
the expander does not even receive the weights; with weights whose `yh`
labels differ from the field's, the expanded mask carries the field's labels
`["10"]`, not the weights' labels `["99"]`. -/
theorem C8_weights_labels_cex :
    region3dOf cexVar4 cexBasins 0 = .ok (expandedMask cexVar4 cexBasins 0)
    ∧ (expandedMask cexVar4 cexBasins 0).coord "yh" = some ["10"]
    ∧ cexVar4.coord "yh" = some ["10"]
    ∧ cexWAlt.coord "yh" = some ["99"]
    ∧ some (["10"] : List String) ≠ some ["99"] :=
  ⟨rfl, rfl, rfl, rfl, by decide⟩

theorem region3dOf_ok_inv (var b : DataArray) (r : Nat) (m : DataArray)
    (h : region3dOf var b r = .ok m) :
    var.dims.length = 4 ∧ (var.coord "z_l").isSome ∧ (var.coord "yh").isSome
      ∧ (var.coord "xh").isSome := by
  unfold region3dOf at h
  split at h
  · exact absurd h (by simp)
  · rename_i zs hz
    split at h
    · rename_i x1 b0 b1
      split at h
      · rename_i y1 y2 y3 hdp
        split at h
        · rename_i yhs xhs hy hx
          refine ⟨?_, by rw [hz]; rfl, by rw [hy]; rfl, by rw [hx]; rfl⟩
          have hlen := congrArg List.length hdp
          rw [List.length_drop] at hlen
          simp only [List.length_cons, List.length_nil] at hlen
          omega
        · exact absurd h (by simp)
      · exact absurd h (by simp)
    · exact absurd h (by simp)

theorem basinLoop_ok_first (kernel : DataArray → DataArray) (var w b : DataArray)
    (allRegs : List String) (od : List (String × DataArray)) (lbl : String)
    (rest : List String) (res : List (String × DataArray))
    (h : basinLoop kernel var w b allRegs od (lbl :: rest) = .ok res) :
    ∃ m, region3dOf var b (posOf allRegs lbl) = .ok m := by
  have h' : (match region3dOf var b (posOf allRegs lbl) with
      | Except.error e => (Except.error e : Except Err (List (String × DataArray)))
      | Except.ok r3 =>
        basinLoop kernel var w b allRegs (odInsert od lbl (kernel (whereOne w r3))) rest)
      = .ok res := h
  cases hr3 : region3dOf var b (posOf allRegs lbl) with
  | error e =>
    rw [hr3] at h'
    exact absurd h' (by simp)
  | ok m => exact ⟨m, rfl⟩

theorem mkOut_ok_inv (var b : DataArray) (regs : List String)
    (od : List (String × DataArray)) (out : DataArray)
    (h : mkOut var b regs od = .ok out) :
    (var.coord "time").isSome ∧ (var.coord "z_l").isSome := by
  unfold mkOut at h
  split at h
  · rename_i rd brest d0 d1 vrest hbd hvd
    split at h
    · rename_i ts zs hts hzs
      exact ⟨by rw [hts]; rfl, by rw [hzs]; rfl⟩
    · exact absurd h (by simp)
  · exact absurd h (by simp)

theorem basinBranch_ok_inv (kernel : DataArray → DataArray) (var w b : DataArray)
    (regs : List String) (hreg : b.coord "region" = some regs) (hne : regs ≠ [])
    (out : DataArray) (h : basinBranch kernel var w b = .ok out) :
    var.dims.length = 4 ∧ (var.coord "z_l").isSome ∧ (var.coord "yh").isSome
      ∧ (var.coord "xh").isSome ∧ (var.coord "time").isSome := by
  unfold basinBranch at h
  split at h
  · exact absurd h (by simp)
  rename_i regs' hreg'
  have hrr : regs' = regs := by
    rw [hreg'] at hreg
    exact Option.some.inj hreg
  subst hrr
  by_cases h3 : w.dims.length ≠ 3
  · rw [if_pos h3] at h
    exact absurd h (by simp)
  · rw [if_neg h3] at h
    cases hregs : regs' with
    | nil => exact absurd hregs hne
    | cons lbl rest =>
      rw [hregs] at h
      cases hloop : basinLoop kernel var w b (lbl :: rest) [] (lbl :: rest) with
      | error e =>
        rw [hloop] at h
        exact absurd h (by simp)
      | ok od =>
        rw [hloop] at h
        obtain ⟨m, hm⟩ := basinLoop_ok_first kernel var w b (lbl :: rest) [] lbl rest od hloop
        obtain ⟨hlen, hzl, hyh, hxh⟩ := region3dOf_ok_inv var b _ m hm
        obtain ⟨htime, _⟩ := mkOut_ok_inv var b (lbl :: rest) od out h
        exact ⟨hlen, hzl, hyh, hxh, htime⟩

/-- C10 (amended).  In basin mode (with at least one region), both reducers
require the field to have exactly four dimensions and coordinates named
`z_l`, `yh`, `xh` and `time` (all accessed positionally or by hardcoded
name); a field with fewer/more dimensions or a missing coordinate fails.  The
dimension *names* themselves, however, are never checked: a field whose four
dimensions are not named `(time, z_l, yh, xh)` can still run the basin branch
to completion (see the counterexample). -/
theorem C10_basin_structural_requirements (var w b : DataArray) (d2 d3 : String)
    (regs : List String) (hreg : b.coord "region" = some regs) (hne : regs ≠ []) :
    ((∃ out, HorizontalMeanRmse_da var (d2, d3) (some w) (some b) = .ok out) →
      var.dims.length = 4 ∧ (var.coord "z_l").isSome ∧ (var.coord "yh").isSome
        ∧ (var.coord "xh").isSome ∧ (var.coord "time").isSome)
    ∧ ((∃ out, HorizontalMeanDiff_da var (d2, d3) (some w) (some b) = .ok out) →
      var.dims.length = 4 ∧ (var.coord "z_l").isSome ∧ (var.coord "yh").isSome
        ∧ (var.coord "xh").isSome ∧ (var.coord "time").isSome) := by
  constructor
  · rintro ⟨out, hout⟩
    by_cases h1 : d2 ∈ var.dims
    · by_cases h2 : d3 ∈ var.dims
      · rw [show HorizontalMeanRmse_da var (d2, d3) (some w) (some b) =
            basinBranch (fun tw => rmseKernel var tw d2 d3) var w b from by
          simp [HorizontalMeanRmse_da, h1, h2]] at hout
        exact basinBranch_ok_inv _ var w b regs hreg hne out hout
      · rw [show HorizontalMeanRmse_da var (d2, d3) (some w) (some b) = .error .missingDim
          from by simp [HorizontalMeanRmse_da, h1, h2]] at hout
        exact absurd hout (by simp)
    · rw [show HorizontalMeanRmse_da var (d2, d3) (some w) (some b) = .error .missingDim
        from by simp [HorizontalMeanRmse_da, h1]] at hout
      exact absurd hout (by simp)
  · rintro ⟨out, hout⟩
    by_cases h1 : d2 ∈ var.dims
    · by_cases h2 : d3 ∈ var.dims
      · rw [show HorizontalMeanDiff_da var (d2, d3) (some w) (some b) =
            basinBranch (fun tw => meanKernel var tw d2 d3) var w b from by
          simp [HorizontalMeanDiff_da, h1, h2]] at hout
        exact basinBranch_ok_inv _ var w b regs hreg hne out hout
      · rw [show HorizontalMeanDiff_da var (d2, d3) (some w) (some b) = .error .missingDim
          from by simp [HorizontalMeanDiff_da, h1, h2]] at hout
        exact absurd hout (by simp)
    · rw [show HorizontalMeanDiff_da var (d2, d3) (some w) (some b) = .error .missingDim
        from by simp [HorizontalMeanDiff_da, h1]] at hout
      exact absurd hout (by simp)

/-- Witness for C10: the successful concrete basin run implies the structural
facts for the concrete field. -/
theorem C10_basin_structural_requirements_witness :
    cexVar4.dims.length = 4 ∧ (cexVar4.coord "z_l").isSome ∧ (cexVar4.coord "yh").isSome
      ∧ (cexVar4.coord "xh").isSome ∧ (cexVar4.coord "time").isSome :=
  (C10_basin_structural_requirements cexVar4 cexW3 cexBasins "yh" "xh" ["Atlantic"]
    rfl (by decide)).1 ⟨_, rmse_basin_spec cexStd⟩

/-- Counterexample for C10 as stated: a 4-D field whose leading dimension is
named `foo` (not `time`) — i.e. not of the claimed exact form — still runs the
basin branch to completion, because the code never compares the dimension
names, only positions and coordinate names. -/
theorem C10_dim_names_unchecked_cex :
    isOk (HorizontalMeanRmse_da cexVar10 ("yh", "xh") (some cexW3) (some cexBasins)) = true
    ∧ cexVar10.dims ≠ ["time", "z_l", "yh", "xh"] := by
  constructor
  · rfl
  · decide

end MOM6
